import Mathlib

/-!
Verification of the i915 minigbm backend (src/i915.c).

The C code is shallowly embedded: machine integers (`uint32_t`, `uint64_t`,
`uint16_t`) are modelled as `Nat` (all constants involved are small powers of
two and the claims are stated over the overflow-free regime of the C code),
fallible functions return `Except Int`, and the few helpers that live outside
this repository (drv.c / helpers.c / libc) are either taken as parameters or
modelled from the spec with an explicit doc comment.
-/

set_option autoImplicit false

/-! ### DRM / i915 constants (external/i915_drm.h, drm_fourcc.h) -/

/-- Constant `DRM_FORMAT_MOD_LINEAR`. -/
def DRM_FORMAT_MOD_LINEAR : Nat := 0

/-- Constant `I915_FORMAT_MOD_X_TILED` = `fourcc_mod_code(INTEL, 1)`. -/
def I915_FORMAT_MOD_X_TILED : Nat := 2 ^ 56 + 1

/-- Constant `I915_FORMAT_MOD_Y_TILED` = `fourcc_mod_code(INTEL, 2)`. -/
def I915_FORMAT_MOD_Y_TILED : Nat := 2 ^ 56 + 2

/-- Constant `I915_FORMAT_MOD_Y_TILED_CCS` = `fourcc_mod_code(INTEL, 4)`. -/
def I915_FORMAT_MOD_Y_TILED_CCS : Nat := 2 ^ 56 + 4

/-- Constant `I915_TILING_NONE`. -/
def I915_TILING_NONE : Nat := 0

/-- Constant `I915_TILING_X`. -/
def I915_TILING_X : Nat := 1

/-- Constant `I915_TILING_Y`. -/
def I915_TILING_Y : Nat := 2

/-- Constant `DRM_FORMAT_NV12`. -/
def DRM_FORMAT_NV12 : Nat := 0x3231564E

/-- Constant `DRM_FORMAT_P010`. -/
def DRM_FORMAT_P010 : Nat := 0x30313050

/-- Constant `DRM_FORMAT_P016`. -/
def DRM_FORMAT_P016 : Nat := 0x36313050

/-- Modelled from the spec: `getpagesize()` (libc, outside src/) on the x86
platforms the i915 backend targets; the spec's page-alignment invariant is
stated against this system page size. -/
def pagesize : Nat := 4096

/-! ### util.h macros (outside src/, standard ceiling arithmetic)

Modelled from the spec: `ALIGN` is the plain ceiling-alignment and
`DIV_ROUND_UP` the ceiling division the spec describes ("stride aligned to",
"width-in-tiles = ceil(stride / 128)"). -/

/-- Macro `ALIGN(A, B)`: least multiple of `b` that is at least `a` (for `b > 0`). -/
def ALIGN (a b : Nat) : Nat := (a + b - 1) / b * b

/-- Macro `DIV_ROUND_UP(n, d)`: ceiling division. -/
def DIV_ROUND_UP (n d : Nat) : Nat := (n + d - 1) / d

/-! ### i915_align_dimensions (src/i915.c lines 188-251) -/

/-- The `horizontal_alignment` selected by the `switch (tiling)` in
`i915_align_dimensions`.  The C `default:` case shares the `I915_TILING_NONE`
arm; `LINEAR_ALIGN_256` is not defined in the modelled build, so the linear
constant is 64. -/
def i915_horizontal_alignment (gen tiling : Nat) : Nat :=
  if tiling = I915_TILING_X then 512
  else if tiling = I915_TILING_Y then (if gen = 3 then 512 else 128)
  else 64

/-- The `vertical_alignment` selected by the `switch (tiling)` in
`i915_align_dimensions`. -/
def i915_vertical_alignment (gen tiling : Nat) : Nat :=
  if tiling = I915_TILING_X then 8
  else if tiling = I915_TILING_Y then (if gen = 3 then 8 else 32)
  else 4

/-- The gen ≤ 3 loop of `i915_align_dimensions`:
`while (*stride > horizontal_alignment) horizontal_alignment <<= 1;`
followed by `*stride = horizontal_alignment`.  The guard `0 < ha` is added
only to make the function total; every call site passes `ha ≥ 64` (the C
loop would not terminate for `ha = 0`). -/
def doubleAlign (ha stride : Nat) : Nat :=
  if h : 0 < ha ∧ ha < stride then doubleAlign (ha * 2) stride else ha
termination_by stride - ha
decreasing_by omega

/-- Expression `1 << (32 - __builtin_clz(s - 1))` for `2 ≤ s ≤ 2^31` (the regime in
which the C expression is defined): for `s - 1 ≥ 1`,
`32 - clz32(s - 1)` is the bit length `log2 (s-1) + 1` of `s - 1`. -/
def nextPow2 (s : Nat) : Nat := 2 ^ (Nat.log2 (s - 1) + 1)

/-- The generation-dependent stride alignment of `i915_align_dimensions`
(lines 234-241): plain `ALIGN` for `gen > 3`, the doubling loop otherwise. -/
def i915_gen_aligned_stride (gen tiling stride : Nat) : Nat :=
  if 3 < gen then ALIGN stride (i915_horizontal_alignment gen tiling)
  else doubleAlign (i915_horizontal_alignment gen tiling) stride

/-- The ADL-P power-of-two post-pass of `i915_align_dimensions`
(lines 243-245). -/
def i915_adlp_stride (is_adlp : Bool) (tiling s : Nat) : Nat :=
  if is_adlp = true ∧ 1 < s ∧ tiling ≠ I915_TILING_NONE then nextPow2 s else s

/-- The stride value `i915_align_dimensions` has computed when it reaches the
`gen <= 3 && *stride > 8192` check on line 247. -/
def i915_final_stride (gen : Nat) (is_adlp : Bool) (tiling stride : Nat) : Nat :=
  i915_adlp_stride is_adlp tiling (i915_gen_aligned_stride gen tiling stride)

/-- Function `i915_align_dimensions` (src/i915.c lines 188-251): returns the aligned
(stride, height) pair, or `-EINVAL` (-22) on the legacy row-pitch limit. -/
def i915_align_dimensions (gen : Nat) (is_adlp : Bool) (tiling stride height : Nat) :
    Except Int (Nat × Nat) :=
  let h := ALIGN height (i915_vertical_alignment gen tiling)
  let s := i915_final_stride gen is_adlp tiling stride
  if gen ≤ 3 ∧ 8192 < s then .error (-22) else .ok (s, h)

/-! ### i915_info_from_device_id (src/i915.c lines 54-87) -/

/-- Table `gen3_ids`. -/
def gen3_ids : List Nat :=
  [0x2582, 0x2592, 0x2772, 0x27A2, 0x27AE, 0x29C2, 0x29B2, 0x29D2, 0xA001, 0xA011]

/-- Table `gen11_ids`. -/
def gen11_ids : List Nat := [0x4E71, 0x4E61, 0x4E51, 0x4E55, 0x4E57]

/-- Table `gen12_ids`. -/
def gen12_ids : List Nat :=
  [0x9A40, 0x9A49, 0x9A59, 0x9A60, 0x9A68, 0x9A70, 0x9A78, 0x9AC0, 0x9AC9, 0x9AD9, 0x9AF8]

/-- Table `adlp_ids`. -/
def adlp_ids : List Nat :=
  [0x46A0, 0x46A1, 0x46A2, 0x46A3, 0x46A6, 0x46A8, 0x46AA, 0x462A, 0x4626,
   0x4628, 0x46B0, 0x46B1, 0x46B2, 0x46B3, 0x46C0, 0x46C1, 0x46C2, 0x46C3]

/-- The mutable fields of `struct i915_device` that
`i915_info_from_device_id` computes. -/
structure I915Device where
  gen : Nat
  is_adlp : Bool
deriving Repr, DecidableEq

/-- One of the `for` loops of `i915_info_from_device_id`: each element of
`ids` equal to `device_id` overwrites the running generation with `tier`. -/
def scan_gen (ids : List Nat) (device_id tier gen : Nat) : Nat :=
  ids.foldl (fun g id => if id = device_id then tier else g) gen

/-- Function `i915_info_from_device_id` (src/i915.c lines 54-87): the four membership
scans in source order, the ADL-P scan last, overwriting both fields. -/
def i915_info_from_device_id (device_id : Nat) : I915Device :=
  let g1 := scan_gen gen3_ids device_id 3 4
  let g2 := scan_gen gen11_ids device_id 11 g1
  let g3 := scan_gen gen12_ids device_id 12 g2
  adlp_ids.foldl
    (fun d id => if id = device_id then ⟨12, true⟩ else d)
    ⟨g3, false⟩

/-! ### Modifier resolution in i915_bo_compute_metadata (src/i915.c 363-411)

The caller's modifier array is modelled as `Option (List Nat)`: `none` is a
NULL `modifiers` pointer (in which case the driver core passes `count = 0`,
so the scan loops `for (i = 0; modifiers && i < count; i++)` see an empty
range), `some l` a non-NULL array holding exactly `count = l.length`
entries. -/

/-- The huge-surface downgrade pass (src/i915.c lines 380-395), applied to
the candidate modifier `m`. -/
def i915_huge_downgrade (gen width format : Nat) (modifiers : Option (List Nat))
    (m : Nat) : Nat :=
  if gen < 11 ∧ 4096 < width ∧ format ≠ DRM_FORMAT_NV12 ∧ format ≠ DRM_FORMAT_P010 ∧
      m ≠ I915_FORMAT_MOD_X_TILED ∧ m ≠ DRM_FORMAT_MOD_LINEAR then
    if (modifiers.getD []).contains I915_FORMAT_MOD_X_TILED then I915_FORMAT_MOD_X_TILED
    else DRM_FORMAT_MOD_LINEAR
  else m

/-- The compression-disabled downgrade pass (src/i915.c lines 397-411),
applied to the candidate modifier `m`.  `compression` is
`bo->drv->compression`. -/
def i915_compression_downgrade (compression : Bool) (modifiers : Option (List Nat))
    (m : Nat) : Nat :=
  if compression = false ∧ m = I915_FORMAT_MOD_Y_TILED_CCS then
    if (modifiers.getD []).contains I915_FORMAT_MOD_Y_TILED then I915_FORMAT_MOD_Y_TILED
    else DRM_FORMAT_MOD_LINEAR
  else m

/-- The modifier finally resolved by `i915_bo_compute_metadata` from the
initially chosen candidate `m0` (the result of `drv_pick_modifier` in
constrained mode, or of the combination lookup in unconstrained mode): the
two downgrade passes in source order. -/
def i915_resolve_modifier (gen : Nat) (compression : Bool) (width format : Nat)
    (modifiers : Option (List Nat)) (m0 : Nat) : Nat :=
  i915_compression_downgrade compression modifiers
    (i915_huge_downgrade gen width format modifiers m0)

/-- The `switch (modifier)` on src/i915.c lines 413-424.  The C switch has no
`default:`; `bo->meta.tiling` then keeps its zero-initialised value
`I915_TILING_NONE`. -/
def i915_modifier_to_tiling (m : Nat) : Nat :=
  if m = DRM_FORMAT_MOD_LINEAR then I915_TILING_NONE
  else if m = I915_FORMAT_MOD_X_TILED then I915_TILING_X
  else if m = I915_FORMAT_MOD_Y_TILED ∨ m = I915_FORMAT_MOD_Y_TILED_CCS then I915_TILING_Y
  else I915_TILING_NONE

/-! ### Unconstrained-mode combination lookup (src/i915.c lines 370-378) -/

/-- `struct combination` as consumed by i915.c: the format it applies to,
its usage mask, and the `format_metadata` fields the resolver reads. -/
structure Combination where
  format : Nat
  use_flags : Nat
  modifier : Nat
  priority : Nat
deriving Repr, DecidableEq

/-- A combination matches a request when the format is equal and every
requested usage bit is present in the combination's mask. -/
def combo_matches (c : Combination) (format use_flags : Nat) : Bool :=
  c.format = format ∧ Nat.land use_flags c.use_flags = use_flags

/-- Modelled from the spec: `drv_get_combination` (drv.c, outside src/)
"queries the Capability Matrix for (format, usage) and takes the
highest-priority LayoutDescriptor"; a linear scan keeping the
strictly-highest-priority matching entry, `none` when no entry matches.
`combo_step` is the body of that scan. -/
def combo_step (format use_flags : Nat) (best : Option Combination) (c : Combination) :
    Option Combination :=
  if combo_matches c format use_flags then
    match best with
    | none => some c
    | some b => if b.priority < c.priority then some c else best
  else best

/-- Modelled from the spec (continued): the full scan over the matrix. -/
def drv_get_combination (matrix : List Combination) (format use_flags : Nat) :
    Option Combination :=
  matrix.foldl (combo_step format use_flags) none

/-- The unconstrained entry mode of `i915_bo_compute_metadata`
(src/i915.c lines 373-378): fail with `-EINVAL` when the lookup returns
NULL, otherwise take the combination's modifier as the candidate. -/
def i915_unconstrained_modifier (matrix : List Combination) (format use_flags : Nat) :
    Except Int Nat :=
  match drv_get_combination matrix format use_flags with
  | none => .error (-22)
  | some c => .ok c.modifier

/-! ### Plane layout engine (src/i915.c lines 322-361 and 439-479) -/

/-- The plane arrays of `struct bo_metadata` that i915.c writes: parallel
lists of per-plane stride, size and byte offset, plus `num_planes` and
`total_size`. -/
structure BufferLayout where
  strides : List Nat
  sizes : List Nat
  offsets : List Nat
  num_planes : Nat
  total_size : Nat
deriving Repr, DecidableEq

/-- Function `i915_format_needs_LCU_alignment` (src/i915.c lines 310-320). -/
def i915_format_needs_LCU_alignment (format plane gen : Nat) : Bool :=
  if format = DRM_FORMAT_NV12 ∨ format = DRM_FORMAT_P010 ∨ format = DRM_FORMAT_P016 then
    decide ((gen = 11 ∨ gen = 12) ∧ plane = 1)
  else false

/-- The body of the per-plane loop of `i915_bo_from_format` for plane index
`plane` with raw (stride, height) input `sh` (the values produced by the
drv helpers `drv_stride_from_format` / `drv_height_from_format`, which live
outside src/ and are therefore taken as inputs): alignment, optional LCU
height padding, and the plane's (stride, size). -/
def i915_plane_layout (gen : Nat) (is_adlp : Bool) (tiling format plane : Nat)
    (sh : Nat × Nat) : Except Int (Nat × Nat) :=
  match i915_align_dimensions gen is_adlp tiling sh.1 sh.2 with
  | .error e => .error e
  | .ok (s, h) =>
    let h2 := if i915_format_needs_LCU_alignment format plane gen then ALIGN h 64 else h
    .ok (s, s * h2)

/-- The accumulation loop of `i915_bo_from_format` (src/i915.c lines
332-356): starting from plane index `plane` and running byte offset `off`,
produce the list of per-plane (stride, size, offset) triples and the final
offset (the sum of all plane sizes), or the first plane's error. -/
def i915_bo_from_format_go (gen : Nat) (is_adlp : Bool) (tiling format : Nat) :
    Nat → Nat → List (Nat × Nat) → Except Int (List (Nat × Nat × Nat) × Nat)
  | _, off, [] => .ok ([], off)
  | plane, off, sh :: rest =>
    match i915_plane_layout gen is_adlp tiling format plane sh with
    | .error e => .error e
    | .ok (s, sz) =>
      match i915_bo_from_format_go gen is_adlp tiling format (plane + 1) (off + sz) rest with
      | .error e => .error e
      | .ok (tl, fin) => .ok ((s, sz, off) :: tl, fin)

/-- Function `i915_bo_from_format` (src/i915.c lines 322-361).  `planeInputs` holds
the raw (stride, height) pair that the drv format helpers return for each
plane of the format (one entry per plane of the format). -/
def i915_bo_from_format (gen : Nat) (is_adlp : Bool) (tiling format : Nat)
    (planeInputs : List (Nat × Nat)) : Except Int BufferLayout :=
  match i915_bo_from_format_go gen is_adlp tiling format 0 0 planeInputs with
  | .error e => .error e
  | .ok (l, off) =>
    .ok ⟨l.map (fun p => p.1), l.map (fun p => p.2.1), l.map (fun p => p.2.2),
         l.length, ALIGN off pagesize⟩

/-- The `I915_FORMAT_MOD_Y_TILED_CCS` branch of `i915_bo_compute_metadata`
(src/i915.c lines 439-479).  `stride` is the raw main-surface row stride
`drv_stride_from_format(format, width, 0)` (helper outside src/, taken as
input); `height` is the requested buffer height. -/
def i915_ccs_layout (stride height : Nat) : BufferLayout :=
  let width_in_tiles := DIV_ROUND_UP stride 128
  let height_in_tiles := DIV_ROUND_UP height 32
  let size := width_in_tiles * height_in_tiles * 4096
  let ccs_width_in_tiles := DIV_ROUND_UP width_in_tiles 32
  let ccs_height_in_tiles := DIV_ROUND_UP height_in_tiles 16
  let ccs_size := ccs_width_in_tiles * ccs_height_in_tiles * 4096
  ⟨[width_in_tiles * 128, ccs_width_in_tiles * 128], [size, ccs_size],
   [0, size], 2, size + ccs_size⟩

/-- Constant `DRM_FORMAT_YVU420_ANDROID` = `fourcc_code('9','9','9','7')`
(drv.h, outside src/ but referenced by src/i915.c line 428). -/
def DRM_FORMAT_YVU420_ANDROID : Nat := 0x37393939

/-- Modelled from the spec: `drv_num_planes_from_format` (helpers.c, outside
src/): the format's natural plane count — the spec's data model gives
planar YUV formats such as the Android packed 4:2:0 variant up to 3 planes
and the two named semi-planar video formats 2; single-plane formats get
1. -/
def drv_num_planes_from_format (format : Nat) : Nat :=
  if format = DRM_FORMAT_YVU420_ANDROID then 3
  else if format = DRM_FORMAT_NV12 ∨ format = DRM_FORMAT_P010 ∨
      format = DRM_FORMAT_P016 then 2
  else 1

/-- Modelled from the spec: `drv_bo_from_format` (drv.c, outside src/), the
engine the Android packed-420 branch re-runs: one (stride, size, offset)
entry per natural plane of the format, offsets accumulating sequentially
from 0, total size the sum.  The per-plane strides and sizes come from drv
format helpers outside src/ and are taken as inputs indexed by plane. -/
def drv_bo_from_format (format : Nat) (planeStride planeSize : Nat → Nat) :
    BufferLayout :=
  let n := drv_num_planes_from_format format
  ⟨(List.range n).map planeStride,
   (List.range n).map planeSize,
   (List.range n).map (fun i => ((List.range i).map planeSize).sum),
   n,
   ((List.range n).map planeSize).sum⟩

/-- The layout dispatch of `i915_bo_compute_metadata` (src/i915.c lines
428-482): the `DRM_FORMAT_YVU420_ANDROID` check precedes the
`I915_FORMAT_MOD_Y_TILED_CCS` check, which precedes the generic per-plane
path.  (In the C the generic branch's return value is ignored on line 481;
the `Except` here tracks it anyway, which the claims about this dispatch do
not rely on.)  `stride0` is `drv_stride_from_format(format, width, 0)` and
`planeStride`/`planeSize`/`planeInputs` are the drv-helper results for the
Android and generic paths, all helpers outside src/. -/
def i915_bo_compute_layout (gen : Nat) (is_adlp : Bool) (tiling format modifier : Nat)
    (stride0 height : Nat) (planeStride planeSize : Nat → Nat)
    (planeInputs : List (Nat × Nat)) : Except Int BufferLayout :=
  if format = DRM_FORMAT_YVU420_ANDROID then
    .ok (drv_bo_from_format format planeStride planeSize)
  else if modifier = I915_FORMAT_MOD_Y_TILED_CCS then
    .ok (i915_ccs_layout stride0 height)
  else
    i915_bo_from_format gen is_adlp tiling format planeInputs

/-! ### i915_bo_map path selection (src/i915.c lines 579-639)

The two mmap ioctls are external effects; their success is abstracted as the
oracle booleans `cpuOk` (`DRM_IOCTL_I915_GEM_MMAP` returns 0) and `gttOk`
(`DRM_IOCTL_I915_GEM_MMAP_GTT` and the subsequent `mmap` both succeed).
What is verified is the pure path-selection logic. -/

/-- Which mapping paths `i915_bo_map` attempted and whether it returned a
mapped address (`success = false` is a `MAP_FAILED` return). -/
structure MapOutcome where
  attemptedCpu : Bool
  attemptedGtt : Bool
  success : Bool
deriving Repr, DecidableEq

/-- The control flow of `i915_bo_map` (src/i915.c lines 579-639): an early
`MAP_FAILED` return for `I915_FORMAT_MOD_Y_TILED_CCS` buffers, the
CPU-domain `DRM_IOCTL_I915_GEM_MMAP` block only for `I915_TILING_NONE`, and
the GTT block whenever `addr` is still `MAP_FAILED` afterwards. -/
def i915_bo_map_path (format_modifier tiling : Nat) (cpuOk gttOk : Bool) : MapOutcome :=
  if format_modifier = I915_FORMAT_MOD_Y_TILED_CCS then ⟨false, false, false⟩
  else if tiling = I915_TILING_NONE then
    if cpuOk then ⟨true, false, true⟩
    else ⟨true, true, gttOk⟩
  else ⟨false, true, gttOk⟩

/-- The offsets recorded in a triple list are sequential starting at `off`:
each plane's offset is the running offset and the running offset advances by
the plane's size. -/
def seqOff : Nat → List (Nat × Nat × Nat) → Prop
  | _, [] => True
  | off, p :: rest => p.2.2 = off ∧ seqOff (off + p.2.1) rest

/-! ### Helper lemmas -/

theorem ALIGN_le (a b : Nat) (hb : 0 < b) : a ≤ ALIGN a b := by
  have key := Nat.div_add_mod (a + b - 1) b
  have hlt : (a + b - 1) % b < b := Nat.mod_lt _ hb
  unfold ALIGN
  rw [Nat.mul_comm b ((a + b - 1) / b)] at key
  omega

theorem ALIGN_lt (a b : Nat) (hb : 0 < b) : ALIGN a b < a + b := by
  have key := Nat.div_add_mod (a + b - 1) b
  have hlt : (a + b - 1) % b < b := Nat.mod_lt _ hb
  unfold ALIGN
  rw [Nat.mul_comm b ((a + b - 1) / b)] at key
  omega

theorem dvd_ALIGN (a b : Nat) : b ∣ ALIGN a b := by
  unfold ALIGN
  exact dvd_mul_left b ((a + b - 1) / b)

theorem doubleAlign_ge (ha stride : Nat) (h : 0 < ha) : stride ≤ doubleAlign ha stride := by
  unfold doubleAlign
  split
  next hc => exact doubleAlign_ge (ha * 2) stride (by omega)
  next hc => omega
termination_by stride - ha
decreasing_by omega

theorem doubleAlign_pow2 (k stride : Nat) : ∃ m, doubleAlign (2 ^ k) stride = 2 ^ m := by
  unfold doubleAlign
  split
  next hc =>
    have h2 : (2 : Nat) ^ k * 2 = 2 ^ (k + 1) := by rw [Nat.pow_succ]
    rw [h2]
    exact doubleAlign_pow2 (k + 1) stride
  next => exact ⟨k, rfl⟩
termination_by stride - 2 ^ k
decreasing_by
  omega

theorem i915_horizontal_alignment_pow2 (gen tiling : Nat) :
    ∃ k, i915_horizontal_alignment gen tiling = 2 ^ k := by
  unfold i915_horizontal_alignment
  split
  · exact ⟨9, by norm_num⟩
  · split
    · split
      · exact ⟨9, by norm_num⟩
      · exact ⟨7, by norm_num⟩
    · exact ⟨6, by norm_num⟩

theorem le_nextPow2 (s : Nat) (h : 2 ≤ s) : s ≤ nextPow2 s := by
  unfold nextPow2
  have hlt := @Nat.lt_log2_self (s - 1)
  omega

theorem nextPow2_min (s k : Nat) (h2 : 2 ≤ s) (hk : s ≤ 2 ^ k) : nextPow2 s ≤ 2 ^ k := by
  unfold nextPow2
  have hne : s - 1 ≠ 0 := by omega
  have hlog : (s - 1).log2 < k := (Nat.log2_lt hne).2 (by omega)
  exact Nat.pow_le_pow_right (by norm_num) hlog

theorem foldl_overwrite {α : Type} (ids : List Nat) (d : Nat) (c : α) :
    ∀ init : α,
      ids.foldl (fun x id => if id = d then c else x) init =
        if d ∈ ids then c else init := by
  induction ids with
  | nil => intro init; simp
  | cons a ids ih =>
    intro init
    rw [List.foldl_cons, ih]
    by_cases h2 : d ∈ ids
    · simp [h2, List.mem_cons]
    · by_cases h : a = d
      · simp [h2, h, List.mem_cons]
      · have hda : d ≠ a := fun hh => h hh.symm
        simp [h2, h, hda, List.mem_cons]


theorem bo_from_format_go_spec (gen : Nat) (adlp : Bool) (tiling format : Nat) :
    ∀ (planes : List (Nat × Nat)) (plane off : Nat) (l : List (Nat × Nat × Nat)) (fin : Nat),
      i915_bo_from_format_go gen adlp tiling format plane off planes = .ok (l, fin) →
      fin = off + (l.map (fun p => p.2.1)).sum ∧ seqOff off l := by
  intro planes
  induction planes with
  | nil =>
    intro plane off l fin h
    simp only [i915_bo_from_format_go] at h
    obtain ⟨h1, h2⟩ := Prod.mk.injEq .. ▸ (Except.ok.injEq .. ▸ h)
    subst h1; subst h2
    exact ⟨by simp, trivial⟩
  | cons sh rest ih =>
    intro plane off l fin h
    simp only [i915_bo_from_format_go] at h
    cases hpl : i915_plane_layout gen adlp tiling format plane sh with
    | error e => rw [hpl] at h; exact absurd h (by simp)
    | ok ssz =>
      rw [hpl] at h
      obtain ⟨s, sz⟩ := ssz
      dsimp only at h
      cases hgo : i915_bo_from_format_go gen adlp tiling format (plane + 1) (off + sz) rest with
      | error e => rw [hgo] at h; exact absurd h (by simp)
      | ok tf =>
        obtain ⟨tl, f⟩ := tf
        rw [hgo] at h
        dsimp only at h
        simp only [Except.ok.injEq, Prod.mk.injEq] at h
        obtain ⟨hl, hf⟩ := h
        subst hl; subst hf
        obtain ⟨h1, h2⟩ := ih (plane + 1) (off + sz) tl f hgo
        refine ⟨?_, rfl, h2⟩
        simp only [List.map_cons, List.sum_cons]
        omega

theorem seqOff_head (l : List (Nat × Nat × Nat)) (off : Nat) (h : seqOff off l)
    (hne : 0 < l.length) : (l.map (fun p => p.2.2)).getD 0 0 = off := by
  cases l with
  | nil => simp at hne
  | cons p rest => exact h.1

theorem seqOff_getD (l : List (Nat × Nat × Nat)) :
    ∀ off, seqOff off l →
      ∀ i, i + 1 < l.length →
        (l.map (fun p => p.2.2)).getD (i + 1) 0 =
          (l.map (fun p => p.2.2)).getD i 0 + (l.map (fun p => p.2.1)).getD i 0 := by
  induction l with
  | nil => intro off _ i hi; simp at hi
  | cons p rest ih =>
    intro off h i hi
    obtain ⟨hp, hrest⟩ := h
    cases i with
    | zero =>
      cases rest with
      | nil => simp at hi
      | cons q r =>
        obtain ⟨hq, _⟩ := hrest
        simp [hp, hq]
    | succ j =>
      have hj : j + 1 < rest.length := by
        simp only [List.length_cons] at hi; omega
      have := ih (off + p.2.1) hrest j hj
      simpa using this

theorem combo_step_none (format use_flags : Nat) (acc : Option Combination) (c : Combination) :
    combo_step format use_flags acc c = none ↔
      acc = none ∧ combo_matches c format use_flags = false := by
  unfold combo_step
  cases hm : combo_matches c format use_flags with
  | false => simp
  | true =>
    cases acc with
    | none => simp
    | some b =>
      constructor
      · intro h
        by_cases hp : b.priority < c.priority <;> simp [hp] at h
      · intro h
        exact absurd h.1 (by simp)

theorem drv_fold_none (format use_flags : Nat) :
    ∀ (matrix : List Combination) (acc : Option Combination),
      matrix.foldl (combo_step format use_flags) acc = none ↔
        acc = none ∧ ∀ c ∈ matrix, combo_matches c format use_flags = false := by
  intro matrix
  induction matrix with
  | nil => intro acc; simp
  | cons a rest ih =>
    intro acc
    rw [List.foldl_cons, ih, combo_step_none]
    constructor
    · intro h
      obtain ⟨⟨h1, h2⟩, h3⟩ := h
      refine ⟨h1, fun c hc => ?_⟩
      rcases List.mem_cons.1 hc with rfl | hc2
      · exact h2
      · exact h3 c hc2
    · intro h
      obtain ⟨h1, h2⟩ := h
      exact ⟨⟨h1, h2 a (List.mem_cons_self a rest)⟩,
             fun c hc => h2 c (List.mem_cons_of_mem a hc)⟩

theorem drv_fold_some (format use_flags : Nat) :
    ∀ (matrix : List Combination) (acc : Option Combination) (c : Combination),
      matrix.foldl (combo_step format use_flags) acc = some c →
      (∀ c2 ∈ matrix, combo_matches c2 format use_flags = true → c2.priority ≤ c.priority) ∧
      (∀ b, acc = some b → b.priority ≤ c.priority) ∧
      ((c ∈ matrix ∧ combo_matches c format use_flags = true) ∨ acc = some c) := by
  intro matrix
  induction matrix with
  | nil =>
    intro acc c h
    rw [List.foldl_nil] at h
    refine ⟨by simp, fun b hb => ?_, Or.inr h⟩
    rw [h] at hb
    injection hb with hbc
    rw [hbc]
  | cons a rest ih =>
    intro acc c h
    rw [List.foldl_cons] at h
    cases hm : combo_matches a format use_flags with
    | false =>
      have hstep : combo_step format use_flags acc a = acc := by
        unfold combo_step; rw [hm]; simp
      rw [hstep] at h
      obtain ⟨ih1, ih2, ih3⟩ := ih acc c h
      refine ⟨fun c2 hc2 hm2 => ?_, ih2, ?_⟩
      · rcases List.mem_cons.1 hc2 with rfl | hmem
        · rw [hm] at hm2; exact absurd hm2 (by simp)
        · exact ih1 c2 hmem hm2
      · rcases ih3 with ⟨hmem, hmt⟩ | hacc
        · exact Or.inl ⟨List.mem_cons_of_mem a hmem, hmt⟩
        · exact Or.inr hacc
    | true =>
      cases acc with
      | none =>
        have hstep : combo_step format use_flags none a = some a := by
          simp [combo_step, hm]
        rw [hstep] at h
        obtain ⟨ih1, ih2, ih3⟩ := ih (some a) c h
        have hac : a.priority ≤ c.priority := ih2 a rfl
        refine ⟨fun c2 hc2 hm2 => ?_, fun b hb => by exact absurd hb (by simp), ?_⟩
        · rcases List.mem_cons.1 hc2 with rfl | hmem
          · exact hac
          · exact ih1 c2 hmem hm2
        · rcases ih3 with ⟨hmem, hmt⟩ | hacc
          · exact Or.inl ⟨List.mem_cons_of_mem a hmem, hmt⟩
          · injection hacc with he
            exact Or.inl ⟨by rw [← he]; exact List.mem_cons_self a rest, by rw [← he]; exact hm⟩
      | some b =>
        by_cases hp : b.priority < a.priority
        · have hstep : combo_step format use_flags (some b) a = some a := by
            unfold combo_step; rw [hm]; simp [hp]
          rw [hstep] at h
          obtain ⟨ih1, ih2, ih3⟩ := ih (some a) c h
          have hac : a.priority ≤ c.priority := ih2 a rfl
          refine ⟨fun c2 hc2 hm2 => ?_, fun b0 hb0 => ?_, ?_⟩
          · rcases List.mem_cons.1 hc2 with rfl | hmem
            · exact hac
            · exact ih1 c2 hmem hm2
          · injection hb0 with hb0e
            subst hb0e
            omega
          · rcases ih3 with ⟨hmem, hmt⟩ | hacc
            · exact Or.inl ⟨List.mem_cons_of_mem a hmem, hmt⟩
            · injection hacc with he
              exact Or.inl ⟨by rw [← he]; exact List.mem_cons_self a rest, by rw [← he]; exact hm⟩
        · have hstep : combo_step format use_flags (some b) a = some b := by
            unfold combo_step; rw [hm]; simp [hp]
          rw [hstep] at h
          obtain ⟨ih1, ih2, ih3⟩ := ih (some b) c h
          have hbc : b.priority ≤ c.priority := ih2 b rfl
          refine ⟨fun c2 hc2 hm2 => ?_, fun b0 hb0 => ?_, ?_⟩
          · rcases List.mem_cons.1 hc2 with rfl | hmem
            · omega
            · exact ih1 c2 hmem hm2
          · injection hb0 with hb0e
            rw [← hb0e]
            exact hbc
          · rcases ih3 with ⟨hmem, hmt⟩ | hacc
            · exact Or.inl ⟨List.mem_cons_of_mem a hmem, hmt⟩
            · exact Or.inr hacc

theorem i915_horizontal_alignment_pos (gen tiling : Nat) :
    0 < i915_horizontal_alignment gen tiling := by
  obtain ⟨k, hk⟩ := i915_horizontal_alignment_pow2 gen tiling
  rw [hk]
  positivity

theorem i915_compression_downgrade_fix (compression : Bool) (modifiers : Option (List Nat))
    (m : Nat) (h : m ≠ I915_FORMAT_MOD_Y_TILED_CCS) :
    i915_compression_downgrade compression modifiers m = m := by
  unfold i915_compression_downgrade
  rw [if_neg (fun hc => h hc.2)]

/-! ### Claim theorems -/

/-- Claim C4: for every 16-bit device identifier, `i915_info_from_device_id`
assigns the generation by exact membership in the fixed per-tier lists
(3, 11, 12), defaults to the baseline generation 4 when the identifier is in
no list, and — evaluated after the general tier checks, with last-match-wins
semantics — sets `is_adlp = true` and forces generation 12 for identifiers
in the ADL-P list, overriding any earlier tier assignment; the function is
total, so no input produces an error. -/
theorem i915_info_from_device_id_spec (device_id : Nat) :
    ((i915_info_from_device_id device_id).is_adlp = true ↔ device_id ∈ adlp_ids) ∧
    (i915_info_from_device_id device_id).gen =
      (if device_id ∈ adlp_ids then 12
       else if device_id ∈ gen12_ids then 12
       else if device_id ∈ gen11_ids then 11
       else if device_id ∈ gen3_ids then 3
       else 4) := by
  simp only [i915_info_from_device_id, scan_gen, foldl_overwrite]
  by_cases h : device_id ∈ adlp_ids <;> simp [h]

/-- Claim C6: in `i915_align_dimensions`, for generations at or below 3 the
stride is computed by the doubling loop (doubling the tiling-dependent
alignment constant while it is below the stride, then snapping the stride to
it), yielding a power-of-two stride at least as large as the input; for
generations above 3 the stride is plain ceiling-aligned to the alignment
constant (the least multiple of it that is at least the input); the
constant is 64 for linear, 512 for X-tiled, and 512 or 128 for Y-tiled
depending on whether the generation is 3. -/
theorem i915_gen_aligned_stride_spec (gen tiling stride : Nat) :
    (gen ≤ 3 →
      i915_gen_aligned_stride gen tiling stride =
        doubleAlign (i915_horizontal_alignment gen tiling) stride ∧
      (∃ k, i915_gen_aligned_stride gen tiling stride = 2 ^ k) ∧
      stride ≤ i915_gen_aligned_stride gen tiling stride) ∧
    (3 < gen →
      i915_gen_aligned_stride gen tiling stride =
        ALIGN stride (i915_horizontal_alignment gen tiling) ∧
      i915_horizontal_alignment gen tiling ∣ i915_gen_aligned_stride gen tiling stride ∧
      stride ≤ i915_gen_aligned_stride gen tiling stride ∧
      i915_gen_aligned_stride gen tiling stride <
        stride + i915_horizontal_alignment gen tiling) ∧
    (tiling = I915_TILING_NONE → i915_horizontal_alignment gen tiling = 64) ∧
    (tiling = I915_TILING_X → i915_horizontal_alignment gen tiling = 512) ∧
    (tiling = I915_TILING_Y →
      i915_horizontal_alignment gen tiling = if gen = 3 then 512 else 128) := by
  have hpos := i915_horizontal_alignment_pos gen tiling
  refine ⟨fun hle => ?_, fun hgt => ?_, fun ht => ?_, fun ht => ?_, fun ht => ?_⟩
  · have he : i915_gen_aligned_stride gen tiling stride =
        doubleAlign (i915_horizontal_alignment gen tiling) stride := by
      unfold i915_gen_aligned_stride
      rw [if_neg (by omega)]
    refine ⟨he, ?_, ?_⟩
    · obtain ⟨k, hk⟩ := i915_horizontal_alignment_pow2 gen tiling
      rw [he, hk]
      exact doubleAlign_pow2 k stride
    · rw [he]
      exact doubleAlign_ge _ _ hpos
  · have he : i915_gen_aligned_stride gen tiling stride =
        ALIGN stride (i915_horizontal_alignment gen tiling) := by
      unfold i915_gen_aligned_stride
      rw [if_pos hgt]
    rw [he]
    exact ⟨rfl, dvd_ALIGN _ _, ALIGN_le _ _ hpos, ALIGN_lt _ _ hpos⟩
  · subst ht
    simp [i915_horizontal_alignment, I915_TILING_NONE, I915_TILING_X, I915_TILING_Y]
  · subst ht
    simp [i915_horizontal_alignment, I915_TILING_X]
  · subst ht
    simp [i915_horizontal_alignment, I915_TILING_X, I915_TILING_Y]

/-- Witness for C6 at generation 3 (Y-tiled, stride 1000) and generation 12
(linear). -/
theorem i915_gen_aligned_stride_spec_witness :
    1000 ≤ i915_gen_aligned_stride 3 I915_TILING_Y 1000 ∧
    i915_gen_aligned_stride 12 I915_TILING_NONE 100 = ALIGN 100 64 := by
  constructor
  · exact ((i915_gen_aligned_stride_spec 3 I915_TILING_Y 1000).1 (by norm_num)).2.2
  · have h := (i915_gen_aligned_stride_spec 12 I915_TILING_NONE 100).2
    have h64 : i915_horizontal_alignment 12 I915_TILING_NONE = 64 :=
      (i915_gen_aligned_stride_spec 12 I915_TILING_NONE 100).2.2.1 rfl
    have := (h.1 (by norm_num)).1
    rw [h64] at this
    exact this

/-- Claim C7: on generations at or below 3, `i915_align_dimensions` fails
with `-EINVAL` exactly when the final computed stride exceeds 8192 bytes; on
generations above 3 it always succeeds, returning the aligned stride and
height. -/
theorem i915_align_dimensions_failure (gen : Nat) (is_adlp : Bool)
    (tiling stride height : Nat) :
    (i915_align_dimensions gen is_adlp tiling stride height = .error (-22) ↔
      gen ≤ 3 ∧ 8192 < i915_final_stride gen is_adlp tiling stride) ∧
    (3 < gen →
      i915_align_dimensions gen is_adlp tiling stride height =
        .ok (i915_final_stride gen is_adlp tiling stride,
             ALIGN height (i915_vertical_alignment gen tiling))) := by
  unfold i915_align_dimensions
  simp only []
  constructor
  · split
    next hc => simp [hc]
    next hc => simp [hc]
  · intro hgt
    split
    next hc => omega
    next => rfl

/-- Witness for C7: a generation-12 request always succeeds. -/
theorem i915_align_dimensions_failure_witness :
    i915_align_dimensions 12 false I915_TILING_X 100 50 =
      .ok (i915_final_stride 12 false I915_TILING_X 100,
           ALIGN 50 (i915_vertical_alignment 12 I915_TILING_X)) :=
  (i915_align_dimensions_failure 12 false I915_TILING_X 100 50).2 (by norm_num)

/-- Claim C9: in `i915_align_dimensions`, when the device profile's
`is_adlp` flag is set, the tiling mode is not NONE, and the stride after the
generation-dependent alignment is greater than 1, the post-pass replaces the
stride with the smallest power of two greater than or equal to it; in every
other case the post-pass leaves the stride unchanged. -/
theorem i915_adlp_stride_spec (is_adlp : Bool) (tiling s : Nat) :
    (is_adlp = true → tiling ≠ I915_TILING_NONE → 1 < s →
      (∃ k, i915_adlp_stride is_adlp tiling s = 2 ^ k) ∧
      s ≤ i915_adlp_stride is_adlp tiling s ∧
      (∀ k, s ≤ 2 ^ k → i915_adlp_stride is_adlp tiling s ≤ 2 ^ k)) ∧
    (¬(is_adlp = true ∧ 1 < s ∧ tiling ≠ I915_TILING_NONE) →
      i915_adlp_stride is_adlp tiling s = s) := by
  constructor
  · intro ha ht hs
    have he : i915_adlp_stride is_adlp tiling s = nextPow2 s := by
      unfold i915_adlp_stride
      rw [if_pos ⟨ha, hs, ht⟩]
    rw [he]
    exact ⟨⟨Nat.log2 (s - 1) + 1, rfl⟩, le_nextPow2 s hs,
           fun k hk => nextPow2_min s k hs hk⟩
  · intro h
    unfold i915_adlp_stride
    rw [if_neg h]

/-- Witness for C9: ADL-P Y-tiled stride 100 is bumped to at least 100 and
to a power of two; a non-ADL-P stride is untouched. -/
theorem i915_adlp_stride_spec_witness :
    100 ≤ i915_adlp_stride true I915_TILING_Y 100 ∧
    i915_adlp_stride false I915_TILING_Y 100 = 100 := by
  constructor
  · exact ((i915_adlp_stride_spec true I915_TILING_Y 100).1 rfl (by decide) (by norm_num)).2.1
  · exact (i915_adlp_stride_spec false I915_TILING_Y 100).2 (by simp)

/-- Claim C5: if the modifier selected so far is Y-tiled-CCS and compression
is disabled, `i915_bo_compute_metadata` replaces it with the plain Y-tiled
modifier when the caller's supplied modifier list contains it and with the
linear modifier otherwise (in particular when no caller list was supplied);
when compression is enabled or a different modifier was selected, the
rewrite does not run. -/
theorem i915_compression_downgrade_spec (compression : Bool)
    (modifiers : Option (List Nat)) (m : Nat) :
    (compression = false → m = I915_FORMAT_MOD_Y_TILED_CCS →
      (I915_FORMAT_MOD_Y_TILED ∈ modifiers.getD [] →
        i915_compression_downgrade compression modifiers m = I915_FORMAT_MOD_Y_TILED) ∧
      (I915_FORMAT_MOD_Y_TILED ∉ modifiers.getD [] →
        i915_compression_downgrade compression modifiers m = DRM_FORMAT_MOD_LINEAR) ∧
      (modifiers = none →
        i915_compression_downgrade compression modifiers m = DRM_FORMAT_MOD_LINEAR)) ∧
    ((compression = true ∨ m ≠ I915_FORMAT_MOD_Y_TILED_CCS) →
      i915_compression_downgrade compression modifiers m = m) := by
  constructor
  · intro hc hm
    have he : i915_compression_downgrade compression modifiers m =
        (if (modifiers.getD []).contains I915_FORMAT_MOD_Y_TILED then I915_FORMAT_MOD_Y_TILED
         else DRM_FORMAT_MOD_LINEAR) := by
      unfold i915_compression_downgrade
      rw [if_pos ⟨hc, hm⟩]
    refine ⟨fun hmem => ?_, fun hmem => ?_, fun hnone => ?_⟩
    · rw [he, if_pos (List.elem_iff.2 hmem)]
    · rw [he, if_neg (fun hcont => hmem (List.elem_iff.1 hcont))]
    · subst hnone
      rw [he]
      simp
  · intro h
    unfold i915_compression_downgrade
    rw [if_neg]
    intro hc
    rcases h with h | h
    · rw [hc.1] at h; exact Bool.false_ne_true h
    · exact h hc.2

/-- Witness for C5: with compression disabled and Y-tiled in the caller
list, Y-tiled-CCS is rewritten to Y-tiled; with compression enabled it is
kept. -/
theorem i915_compression_downgrade_spec_witness :
    i915_compression_downgrade false (some [I915_FORMAT_MOD_Y_TILED])
        I915_FORMAT_MOD_Y_TILED_CCS = I915_FORMAT_MOD_Y_TILED ∧
    i915_compression_downgrade true (some [I915_FORMAT_MOD_Y_TILED])
        I915_FORMAT_MOD_Y_TILED_CCS = I915_FORMAT_MOD_Y_TILED_CCS := by
  constructor
  · exact ((i915_compression_downgrade_spec false (some [I915_FORMAT_MOD_Y_TILED])
      I915_FORMAT_MOD_Y_TILED_CCS).1 rfl rfl).1 (by simp)
  · exact (i915_compression_downgrade_spec true (some [I915_FORMAT_MOD_Y_TILED])
      I915_FORMAT_MOD_Y_TILED_CCS).2 (Or.inl rfl)

/-- Claim C1: for every allocation request on a device of generation below
11 with width greater than 4096 and a format other than NV12 and P010, the
modifier finally resolved by `i915_bo_compute_metadata` is never Y-tiled or
Y-tiled-CCS; if the initially chosen modifier was one of those, it is
replaced by the X-tiled modifier when the caller's supplied modifier list
contains it, and by the linear modifier otherwise (in particular when no
caller list was supplied). -/
theorem i915_resolve_modifier_huge (gen : Nat) (compression : Bool)
    (width format : Nat) (modifiers : Option (List Nat)) (m0 : Nat)
    (hgen : gen < 11) (hw : 4096 < width)
    (hf1 : format ≠ DRM_FORMAT_NV12) (hf2 : format ≠ DRM_FORMAT_P010) :
    i915_resolve_modifier gen compression width format modifiers m0 ≠
      I915_FORMAT_MOD_Y_TILED ∧
    i915_resolve_modifier gen compression width format modifiers m0 ≠
      I915_FORMAT_MOD_Y_TILED_CCS ∧
    (m0 = I915_FORMAT_MOD_Y_TILED ∨ m0 = I915_FORMAT_MOD_Y_TILED_CCS →
      i915_resolve_modifier gen compression width format modifiers m0 =
        if I915_FORMAT_MOD_X_TILED ∈ modifiers.getD [] then I915_FORMAT_MOD_X_TILED
        else DRM_FORMAT_MOD_LINEAR) ∧
    (modifiers = none ∧ (m0 = I915_FORMAT_MOD_Y_TILED ∨ m0 = I915_FORMAT_MOD_Y_TILED_CCS) →
      i915_resolve_modifier gen compression width format modifiers m0 =
        DRM_FORMAT_MOD_LINEAR) := by
  by_cases hm : m0 ≠ I915_FORMAT_MOD_X_TILED ∧ m0 ≠ DRM_FORMAT_MOD_LINEAR
  · have hh : i915_huge_downgrade gen width format modifiers m0 =
        (if (modifiers.getD []).contains I915_FORMAT_MOD_X_TILED then I915_FORMAT_MOD_X_TILED
         else DRM_FORMAT_MOD_LINEAR) := by
      unfold i915_huge_downgrade
      rw [if_pos ⟨hgen, hw, hf1, hf2, hm.1, hm.2⟩]
    have hr : i915_resolve_modifier gen compression width format modifiers m0 =
        (if (modifiers.getD []).contains I915_FORMAT_MOD_X_TILED then I915_FORMAT_MOD_X_TILED
         else DRM_FORMAT_MOD_LINEAR) := by
      unfold i915_resolve_modifier
      rw [hh]
      split
      · exact i915_compression_downgrade_fix _ _ _ (by decide)
      · exact i915_compression_downgrade_fix _ _ _ (by decide)
    rw [hr]
    refine ⟨?_, ?_, fun _ => ?_, fun h => ?_⟩
    · split <;> decide
    · split <;> decide
    · split
      next hc => rw [if_pos (List.elem_iff.1 hc)]
      next hc => rw [if_neg (fun hmem => hc (List.elem_iff.2 hmem))]
    · rw [h.1]
      simp
  · have hx : m0 = I915_FORMAT_MOD_X_TILED ∨ m0 = DRM_FORMAT_MOD_LINEAR := by
      by_cases h1 : m0 = I915_FORMAT_MOD_X_TILED
      · exact Or.inl h1
      · by_cases h2 : m0 = DRM_FORMAT_MOD_LINEAR
        · exact Or.inr h2
        · exact absurd ⟨h1, h2⟩ hm
    have hh : i915_huge_downgrade gen width format modifiers m0 = m0 := by
      unfold i915_huge_downgrade
      rw [if_neg]
      intro hc
      rcases hx with h | h
      · exact hc.2.2.2.2.1 h
      · exact hc.2.2.2.2.2 h
    have hr : i915_resolve_modifier gen compression width format modifiers m0 = m0 := by
      unfold i915_resolve_modifier
      rw [hh]
      rcases hx with h | h <;> rw [h] <;>
        exact i915_compression_downgrade_fix _ _ _ (by decide)
    rw [hr]
    refine ⟨?_, ?_, fun h => ?_, fun h => ?_⟩
    · rcases hx with h | h <;> rw [h] <;> decide
    · rcases hx with h | h <;> rw [h] <;> decide
    · rcases h with h | h <;> rcases hx with h2 | h2 <;> rw [h2] at h <;>
        first
        | exact absurd h (by decide)
    · rcases h.2 with h3 | h3 <;> rcases hx with h2 | h2 <;> rw [h2] at h3 <;>
        first
        | exact absurd h3 (by decide)

/-- Witness for C1: generation 9, width 5000, render format, no caller
list, initial modifier Y-tiled: the resolved modifier is linear. -/
theorem i915_resolve_modifier_huge_witness :
    i915_resolve_modifier 9 true 5000 0 none I915_FORMAT_MOD_Y_TILED =
      DRM_FORMAT_MOD_LINEAR :=
  (i915_resolve_modifier_huge 9 true 5000 0 none I915_FORMAT_MOD_Y_TILED
    (by norm_num) (by norm_num) (by decide) (by decide)).2.2.2 ⟨rfl, Or.inl rfl⟩

/-- Claim C2 counterexample: the claim fails at a concrete reachable input.
For a `DRM_FORMAT_YVU420_ANDROID` buffer on generation 12 with compression
enabled and a caller modifier list containing `I915_FORMAT_MOD_Y_TILED_CCS`
(which `drv_pick_modifier` then returns, as it heads `gen_modifier_order`),
the resolved modifier is Y-tiled-CCS — both downgrade passes leave it
untouched — yet the Android packed-420 check on src/i915.c line 428
precedes the compressed-layout check on line 439, so the layout comes from
`drv_bo_from_format`, which writes the format's natural 3 planes, not 2.
The per-plane stride/size inputs are the drv-helper values for a 1920x1080
buffer. -/
theorem i915_ccs_two_planes_counterexample :
    i915_resolve_modifier 12 true 1920 DRM_FORMAT_YVU420_ANDROID
        (some [I915_FORMAT_MOD_Y_TILED_CCS]) I915_FORMAT_MOD_Y_TILED_CCS =
      I915_FORMAT_MOD_Y_TILED_CCS ∧
    i915_bo_compute_layout 12 false I915_TILING_Y DRM_FORMAT_YVU420_ANDROID
        I915_FORMAT_MOD_Y_TILED_CCS 1920 1080
        (fun i => if i = 0 then 1920 else 960)
        (fun i => if i = 0 then 1920 * 1080 else 960 * 540) [] =
      .ok (drv_bo_from_format DRM_FORMAT_YVU420_ANDROID
        (fun i => if i = 0 then 1920 else 960)
        (fun i => if i = 0 then 1920 * 1080 else 960 * 540)) ∧
    (drv_bo_from_format DRM_FORMAT_YVU420_ANDROID
        (fun i => if i = 0 then 1920 else 960)
        (fun i => if i = 0 then 1920 * 1080 else 960 * 540)).num_planes = 3 := by
  refine ⟨?_, ?_, rfl⟩
  · show i915_compression_downgrade true (some [I915_FORMAT_MOD_Y_TILED_CCS])
      (i915_huge_downgrade 12 1920 DRM_FORMAT_YVU420_ANDROID
        (some [I915_FORMAT_MOD_Y_TILED_CCS]) I915_FORMAT_MOD_Y_TILED_CCS) =
      I915_FORMAT_MOD_Y_TILED_CCS
    have hh : i915_huge_downgrade 12 1920 DRM_FORMAT_YVU420_ANDROID
        (some [I915_FORMAT_MOD_Y_TILED_CCS]) I915_FORMAT_MOD_Y_TILED_CCS =
        I915_FORMAT_MOD_Y_TILED_CCS := by
      unfold i915_huge_downgrade
      rw [if_neg]
      intro hc
      omega
    rw [hh]
    unfold i915_compression_downgrade
    rw [if_neg]
    intro hc
    exact absurd hc.1 (by simp)
  · unfold i915_bo_compute_layout
    rw [if_pos rfl]

/-- Claim C2 (amended): whenever the resolved modifier is Y-tiled-CCS and
the format is not the Android packed 4:2:0 variant
`DRM_FORMAT_YVU420_ANDROID` (whose dispatch check precedes the compressed
one), `i915_bo_compute_metadata` produces exactly 2 planes regardless of
the format's natural plane count: plane 0 at offset 0 with stride
`width_in_tiles * 128` and size `width_in_tiles * height_in_tiles * 4096`
where `width_in_tiles = ceil(stride / 128)` and
`height_in_tiles = ceil(height / 32)`; plane 1 at offset equal to plane 0's
size with size `ccs_width_in_tiles * ccs_height_in_tiles * 4096` where
`ccs_width_in_tiles = ceil(width_in_tiles / 32)` and
`ccs_height_in_tiles = ceil(height_in_tiles / 16)`; plane 1's offset and
size are multiples of 4096; and the total size equals the sum of the two
plane sizes. -/
theorem i915_ccs_layout_spec (gen : Nat) (is_adlp : Bool) (tiling format : Nat)
    (stride height : Nat) (planeStride planeSize : Nat → Nat)
    (planeInputs : List (Nat × Nat))
    (hf : format ≠ DRM_FORMAT_YVU420_ANDROID) :
    i915_bo_compute_layout gen is_adlp tiling format I915_FORMAT_MOD_Y_TILED_CCS
        stride height planeStride planeSize planeInputs =
      .ok (i915_ccs_layout stride height) ∧
    (i915_ccs_layout stride height).num_planes = 2 ∧
    (i915_ccs_layout stride height).strides =
      [DIV_ROUND_UP stride 128 * 128,
       DIV_ROUND_UP (DIV_ROUND_UP stride 128) 32 * 128] ∧
    (i915_ccs_layout stride height).offsets =
      [0, DIV_ROUND_UP stride 128 * DIV_ROUND_UP height 32 * 4096] ∧
    (i915_ccs_layout stride height).sizes =
      [DIV_ROUND_UP stride 128 * DIV_ROUND_UP height 32 * 4096,
       DIV_ROUND_UP (DIV_ROUND_UP stride 128) 32 *
         DIV_ROUND_UP (DIV_ROUND_UP height 32) 16 * 4096] ∧
    4096 ∣ (i915_ccs_layout stride height).offsets.getD 1 0 ∧
    4096 ∣ (i915_ccs_layout stride height).sizes.getD 1 0 ∧
    (i915_ccs_layout stride height).total_size =
      (i915_ccs_layout stride height).sizes.getD 0 0 +
        (i915_ccs_layout stride height).sizes.getD 1 0 := by
  refine ⟨?_, rfl, rfl, rfl, rfl, ?_, ?_, rfl⟩
  · unfold i915_bo_compute_layout
    rw [if_neg hf, if_pos rfl]
  · exact dvd_mul_left 4096 (DIV_ROUND_UP stride 128 * DIV_ROUND_UP height 32)
  · exact dvd_mul_left 4096
      (DIV_ROUND_UP (DIV_ROUND_UP stride 128) 32 * DIV_ROUND_UP (DIV_ROUND_UP height 32) 16)

/-- Witness for amended C2: a single-plane render format (natural plane
count 1) still gets exactly the 2-plane compressed layout through the
dispatch. -/
theorem i915_ccs_layout_spec_witness :
    i915_bo_compute_layout 12 false I915_TILING_Y 0 I915_FORMAT_MOD_Y_TILED_CCS
        7680 1080 (fun _ => 0) (fun _ => 0) [] =
      .ok (i915_ccs_layout 7680 1080) ∧
    (i915_ccs_layout 7680 1080).num_planes = 2 := by
  have h := i915_ccs_layout_spec 12 false I915_TILING_Y 0 7680 1080
    (fun _ => 0) (fun _ => 0) [] (by decide)
  exact ⟨h.1, h.2.1⟩

/-- Claim C3: for every successfully computed layout — both the generic
per-plane path `i915_bo_from_format` and the compressed path — plane
offsets accumulate sequentially (offset 0 is 0 and each next offset is the
previous offset plus the previous size), and the total size is a multiple
of the system page size and at least the sum of all plane sizes. -/
theorem i915_layout_invariants :
    (∀ (gen : Nat) (is_adlp : Bool) (tiling format : Nat)
       (planeInputs : List (Nat × Nat)) (layout : BufferLayout),
       i915_bo_from_format gen is_adlp tiling format planeInputs = .ok layout →
       (0 < layout.num_planes → layout.offsets.getD 0 0 = 0) ∧
       (∀ i, i + 1 < layout.num_planes →
         layout.offsets.getD (i + 1) 0 =
           layout.offsets.getD i 0 + layout.sizes.getD i 0) ∧
       pagesize ∣ layout.total_size ∧
       layout.sizes.sum ≤ layout.total_size) ∧
    (∀ stride height,
       (0 < (i915_ccs_layout stride height).num_planes →
         (i915_ccs_layout stride height).offsets.getD 0 0 = 0) ∧
       (∀ i, i + 1 < (i915_ccs_layout stride height).num_planes →
         (i915_ccs_layout stride height).offsets.getD (i + 1) 0 =
           (i915_ccs_layout stride height).offsets.getD i 0 +
             (i915_ccs_layout stride height).sizes.getD i 0) ∧
       pagesize ∣ (i915_ccs_layout stride height).total_size ∧
       (i915_ccs_layout stride height).sizes.sum ≤
         (i915_ccs_layout stride height).total_size) := by
  constructor
  · intro gen is_adlp tiling format planeInputs layout h
    unfold i915_bo_from_format at h
    cases hgo : i915_bo_from_format_go gen is_adlp tiling format 0 0 planeInputs with
    | error e => rw [hgo] at h; exact absurd h (by simp)
    | ok lf =>
      obtain ⟨l, fin⟩ := lf
      rw [hgo] at h
      simp only [Except.ok.injEq] at h
      subst h
      obtain ⟨hfin, hseq⟩ := bo_from_format_go_spec gen is_adlp tiling format
        planeInputs 0 0 l fin hgo
      refine ⟨fun hlen => ?_, fun i hi => ?_, ?_, ?_⟩
      · exact seqOff_head l 0 hseq (by simpa using hlen)
      · exact seqOff_getD l 0 hseq i (by simpa using hi)
      · exact dvd_ALIGN fin pagesize
      · have hsum : (List.map (fun p => p.2.1) l).sum = fin := by omega
        simp only [hsum]
        exact ALIGN_le fin pagesize (by norm_num [pagesize])
  · intro stride height
    refine ⟨fun _ => rfl, fun i hi => ?_, ?_, ?_⟩
    · have hi2 : i = 0 := by
        have : (i915_ccs_layout stride height).num_planes = 2 := rfl
        omega
      subst hi2
      show DIV_ROUND_UP stride 128 * DIV_ROUND_UP height 32 * 4096 =
        0 + DIV_ROUND_UP stride 128 * DIV_ROUND_UP height 32 * 4096
      omega
    · show pagesize ∣ DIV_ROUND_UP stride 128 * DIV_ROUND_UP height 32 * 4096 +
        DIV_ROUND_UP (DIV_ROUND_UP stride 128) 32 *
          DIV_ROUND_UP (DIV_ROUND_UP height 32) 16 * 4096
      exact Nat.dvd_add (dvd_mul_left 4096 _) (dvd_mul_left 4096 _)
    · show DIV_ROUND_UP stride 128 * DIV_ROUND_UP height 32 * 4096 +
        (DIV_ROUND_UP (DIV_ROUND_UP stride 128) 32 *
          DIV_ROUND_UP (DIV_ROUND_UP height 32) 16 * 4096 + 0) ≤
        DIV_ROUND_UP stride 128 * DIV_ROUND_UP height 32 * 4096 +
        DIV_ROUND_UP (DIV_ROUND_UP stride 128) 32 *
          DIV_ROUND_UP (DIV_ROUND_UP height 32) 16 * 4096
      omega

/-- Witness for C3: a concrete two-plane linear layout on generation 12. -/
theorem i915_layout_invariants_witness :
    pagesize ∣ (BufferLayout.mk [64, 64] [512, 256] [0, 512] 2 4096).total_size ∧
    (BufferLayout.mk [64, 64] [512, 256] [0, 512] 2 4096).offsets.getD 1 0 =
      (BufferLayout.mk [64, 64] [512, 256] [0, 512] 2 4096).offsets.getD 0 0 +
        (BufferLayout.mk [64, 64] [512, 256] [0, 512] 2 4096).sizes.getD 0 0 := by
  have h := i915_layout_invariants.1 12 false I915_TILING_NONE 0 [(10, 5), (7, 3)]
    (BufferLayout.mk [64, 64] [512, 256] [0, 512] 2 4096) rfl
  exact ⟨h.2.2.1, h.2.1 0 (by norm_num)⟩

/-- Claim C8: in unconstrained mode (no caller-supplied modifier list),
`i915_bo_compute_metadata` fails with `-EINVAL` before writing any layout
metadata if and only if the capability matrix has no entry matching the
requested (format, usage-flag-set) pair; when an entry exists, the
highest-priority matching entry's modifier is taken as the candidate. -/
theorem i915_unconstrained_spec (matrix : List Combination) (format use_flags : Nat) :
    (i915_unconstrained_modifier matrix format use_flags = .error (-22) ↔
      ∀ c ∈ matrix, combo_matches c format use_flags = false) ∧
    (∀ c, drv_get_combination matrix format use_flags = some c →
      c ∈ matrix ∧
      combo_matches c format use_flags = true ∧
      (∀ c2 ∈ matrix, combo_matches c2 format use_flags = true →
        c2.priority ≤ c.priority) ∧
      i915_unconstrained_modifier matrix format use_flags = .ok c.modifier) := by
  constructor
  · constructor
    · intro h
      unfold i915_unconstrained_modifier at h
      cases hg : drv_get_combination matrix format use_flags with
      | none =>
        have := (drv_fold_none format use_flags matrix none).1 hg
        exact this.2
      | some c => rw [hg] at h; exact absurd h (by simp)
    · intro h
      unfold i915_unconstrained_modifier
      cases hg : drv_get_combination matrix format use_flags with
      | none => rfl
      | some c =>
        obtain ⟨_, _, horg⟩ := drv_fold_some format use_flags matrix none c hg
        rcases horg with ⟨hmem, hmt⟩ | habs
        · rw [h c hmem] at hmt
          exact absurd hmt (by simp)
        · exact absurd habs (by simp)
  · intro c hg
    obtain ⟨hmax, _, horg⟩ := drv_fold_some format use_flags matrix none c hg
    rcases horg with ⟨hmem, hmt⟩ | habs
    · refine ⟨hmem, hmt, hmax, ?_⟩
      unfold i915_unconstrained_modifier
      rw [hg]
    · exact absurd habs (by simp)

/-- Witness for C8: a two-entry matrix where both entries match and the
higher-priority entry's modifier is selected. -/
theorem i915_unconstrained_spec_witness :
    i915_unconstrained_modifier
      [Combination.mk 5 3 55 1, Combination.mk 5 1 77 2] 5 1 = .ok 77 :=
  ((i915_unconstrained_spec [Combination.mk 5 3 55 1, Combination.mk 5 1 77 2] 5 1).2
    (Combination.mk 5 1 77 2) rfl).2.2.2

/-- Claim C10 counterexample: a compressed buffer (format modifier
Y-tiled-CCS, tiling mode Y, so its tiling mode is not NONE) is refused by
`i915_bo_map` with `MAP_FAILED` without attempting the GTT mapping path,
even when that path would succeed — contradicting the claim that every
buffer whose tiling mode is not NONE is mapped through the GTT path. -/
theorem i915_bo_map_ccs_counterexample :
    I915_TILING_Y ≠ I915_TILING_NONE ∧
    (i915_bo_map_path I915_FORMAT_MOD_Y_TILED_CCS I915_TILING_Y false true).attemptedGtt
      = false ∧
    (i915_bo_map_path I915_FORMAT_MOD_Y_TILED_CCS I915_TILING_Y false true).success
      = false := by
  refine ⟨by decide, rfl, rfl⟩

/-- Claim C10 (amended): for every buffer whose tiling mode is not NONE and
whose format modifier is not Y-tiled-CCS, `i915_bo_map` uses the GPU-domain
(GTT) mapping path unconditionally — it never attempts the CPU-domain
mapping path, and it returns the mapped address exactly when the GTT mapping
succeeds.  (Y-tiled-CCS buffers are refused with `MAP_FAILED` before any
mapping attempt.) -/
theorem i915_bo_map_gtt (format_modifier tiling : Nat) (cpuOk gttOk : Bool)
    (ht : tiling ≠ I915_TILING_NONE)
    (hm : format_modifier ≠ I915_FORMAT_MOD_Y_TILED_CCS) :
    (i915_bo_map_path format_modifier tiling cpuOk gttOk).attemptedCpu = false ∧
    (i915_bo_map_path format_modifier tiling cpuOk gttOk).attemptedGtt = true ∧
    (i915_bo_map_path format_modifier tiling cpuOk gttOk).success = gttOk := by
  unfold i915_bo_map_path
  rw [if_neg hm, if_neg ht]
  exact ⟨rfl, rfl, rfl⟩

/-- Witness for amended C10: a plain Y-tiled buffer goes through the GTT
path. -/
theorem i915_bo_map_gtt_witness :
    (i915_bo_map_path I915_FORMAT_MOD_Y_TILED I915_TILING_Y false true).attemptedGtt
      = true :=
  (i915_bo_map_gtt I915_FORMAT_MOD_Y_TILED I915_TILING_Y false true
    (by decide) (by decide)).2.1

/-- Witness for C4: the ADL-P identifier 0x46A0 lands in generation 12 with
the quirk flag set, and an unknown identifier falls back to generation 4. -/
theorem i915_info_from_device_id_spec_witness :
    (i915_info_from_device_id 0x46A0).gen = 12 ∧
    (i915_info_from_device_id 0x46A0).is_adlp = true ∧
    (i915_info_from_device_id 0x1234).gen = 4 := by
  refine ⟨?_, ?_, ?_⟩
  · rw [(i915_info_from_device_id_spec 0x46A0).2]; decide
  · exact (i915_info_from_device_id_spec 0x46A0).1.2 (by decide)
  · rw [(i915_info_from_device_id_spec 0x1234).2]; decide
